/-
Verification of the school-timetable service core
(`school_scheduler.py` and the `generate_schedule` endpoint of
`functions/main.py`) against its natural-language specification.

The embedding is shallow: the CP-SAT solver is abstracted as a pair
(status, assignment); everything downstream of the solve call —
extraction, homeroom collection, schedule augmentation, response
formatting, and request validation — is translated directly from the
Python source.  Machine integers are modelled as `Nat` (all quantities
in the program are non-negative in the intended domain).
-/
import Mathlib

namespace SSched

/-! ## Decimal printing

Models Python's `f"{v:02d}"` / `f"{v}"` formatting of non-negative
integers, used for the `T{i}` teacher ids and the `HH:00-HH:00` time
labels. -/

/-- The decimal digit character for `n < 10` (clamped at `'9'` above,
which is never reached by `toDecimalL`). -/
def digitChar (n : Nat) : Char :=
  if n = 0 then '0' else if n = 1 then '1' else if n = 2 then '2'
  else if n = 3 then '3' else if n = 4 then '4' else if n = 5 then '5'
  else if n = 6 then '6' else if n = 7 then '7' else if n = 8 then '8'
  else '9'

/-- Fuel-driven digit expansion (structural recursion so that concrete
values reduce in the kernel); `fuel > n` always suffices because the
argument shrinks by a factor of ten each step. -/
def toDecimalAux (fuel : Nat) (n : Nat) : List Char :=
  match fuel with
  | 0 => []
  | fuel + 1 =>
    if n < 10 then [digitChar n]
    else toDecimalAux fuel (n / 10) ++ [digitChar (n % 10)]

/-- Decimal digit list of a natural number, most significant first. -/
def toDecimalL (n : Nat) : List Char := toDecimalAux (n + 1) n

/-- Decimal rendering of a natural number (Python `f"{n}"` for `n ≥ 0`). -/
def toDecimal (n : Nat) : String := String.mk (toDecimalL n)

/-- Python `f"{n:02d}"` for a non-negative `n`: pad with a leading zero
to at least two characters. -/
def pad2 (n : Nat) : String := if n < 10 then "0" ++ toDecimal n else toDecimal n

/-- Python `s.split("-")[0]`: the prefix of `s` before the first `'-'`
(the whole string when no `'-'` occurs). -/
def beforeDash (s : String) : String :=
  String.mk (s.data.takeWhile (fun c => c != '-'))

/-! ## Parameter model (`SchoolScheduler.get_inputs`) -/

/-- The validated parameter object built by `get_inputs`
(`school_scheduler.py` lines 71-126), restricted to the fields the
solver pipeline reads. -/
structure Params where
  n_teachers : Nat
  grades : List String
  pe_teacher : String
  pe_grades : List String
  pe_day : Nat
  n_pe_periods : Nat
  start_hour : Nat
  n_hours : Nat
  lunch_hour : Nat
  days_per_week : Nat
  enable_pe_constraints : Bool
  homeroom_mode : Nat
deriving Repr, DecidableEq

/-- Derived `params['teachers'] = [f"T{i+1}" for i in range(n_teachers)]`. -/
def teachers (p : Params) : List String :=
  (List.range p.n_teachers).map (fun i => "T" ++ toDecimal (i + 1))

/-- Derived `params['days'] = list(range(1, days_per_week + 1))`. -/
def days (p : Params) : List Nat := List.range' 1 p.days_per_week

/-- Derived `params['hours'] = list(range(1, n_hours + 1))`. -/
def hours (p : Params) : List Nat := List.range' 1 p.n_hours

/-- The teaching hours: `h in hours if h != lunch_hour` (the loop filter
used throughout `_add_constraints` and `get_solution`). -/
def hoursNL (p : Params) : List Nat :=
  (hours p).filter (fun h => decide (h ≠ p.lunch_hour))

/-- Derived `params['non_pe_grades'] = [g for g in grades if g not in pe_grades]`. -/
def nonPeGrades (p : Params) : List String :=
  p.grades.filter (fun g => decide (g ∉ p.pe_grades))

/-- Lookup `params['day_names'][d]`: `Mon..Sun` indexed by day (1-based). -/
def dayName (_p : Params) : Nat → String := fun d =>
  (["Mon", "Tue", "Wed", "Thu", "Fri", "Sat", "Sun"].getD (d - 1) "")

/-- The time-slot label built in `get_solution`
(`f"{start_hour + h - 1:02d}:00-{start_hour + h:02d}:00"`). -/
def timeSlotLabel (p : Params) (h : Nat) : String :=
  pad2 (p.start_hour + h - 1) ++ ":00-" ++ pad2 (p.start_hour + h) ++ ":00"

/-! ## Abstract solver assignment

The CP-SAT decision variables `x[t,g,d,h]` and `hr[t,g]` of `get_model`
are abstracted as total boolean functions; the model only ever reads
them at indices for which the Python dict holds a variable (except for
the `homeroom_mode = 0` slip modelled in `collectHomeroom`). -/

structure Sol where
  x : String → String → Nat → Nat → Bool
  hr : String → String → Bool

/-- Solver outcome of `solver.Solve(model)`. -/
inductive Status where
  | optimal
  | feasible
  | infeasible
  | modelInvalid
  | unknown
deriving Repr, DecidableEq

/-- Constant `solver.parameters.max_time_in_seconds = 300` (`get_solution`, line 243). -/
def max_time_in_seconds : Nat := 300

/-! ## Constraints (`SchoolScheduler._add_constraints`) -/

/-- The assignment satisfies every constraint added by `_add_constraints`
(`school_scheduler.py` lines 162-231): coverage, per-teacher slot
uniqueness, the homeroom block (only when `homeroom_mode > 0`), the PE
block (only when PE is enabled AND `n_pe_periods > 0`), and the
no-back-to-back constraint. -/
def constraints_hold (p : Params) (sol : Sol) : Bool :=
  -- lines 178-182: for each (g, d, h ≠ lunch), sum_t x = 1
  (p.grades.all fun g => (days p).all fun d => (hoursNL p).all fun h =>
    (teachers p).countP (fun t => sol.x t g d h) == 1) &&
  -- lines 184-188: for each (t, d, h ≠ lunch), sum_g x ≤ 1
  ((teachers p).all fun t => (days p).all fun d => (hoursNL p).all fun h =>
    decide (p.grades.countP (fun g => sol.x t g d h) ≤ 1)) &&
  -- lines 190-212: homeroom block, only when homeroom_mode > 0
  (if 0 < p.homeroom_mode then
    ((teachers p).all fun t => decide (p.grades.countP (fun g => sol.hr t g) ≤ 1)) &&
    (p.grades.all fun g => decide (1 ≤ (teachers p).countP (fun t => sol.hr t g))) &&
    ((teachers p).all fun t => p.grades.all fun g => (days p).all fun d =>
      if p.homeroom_mode == 2 then
        (!(sol.x t g d 1) || sol.hr t g) && (!(sol.x t g d p.n_hours) || sol.hr t g)
      else if p.homeroom_mode == 1 then
        (!(sol.x t g d p.n_hours) || sol.hr t g)
      else true) &&
    (p.grades.all fun g => (days p).all fun d =>
      if p.homeroom_mode == 2 then
        decide (1 ≤ (teachers p).countP (fun t => sol.x t g d 1)) &&
        decide (1 ≤ (teachers p).countP (fun t => sol.x t g d p.n_hours))
      else if p.homeroom_mode == 1 then
        decide (1 ≤ (teachers p).countP (fun t => sol.x t g d p.n_hours))
      else true)
  else true) &&
  -- lines 214-224: PE block, only when enabled and n_pe_periods > 0
  (if p.enable_pe_constraints && decide (0 < p.n_pe_periods) then
    (p.pe_grades.all fun g =>
      (hoursNL p).countP (fun h => sol.x p.pe_teacher g p.pe_day h) == 1) &&
    ((nonPeGrades p).all fun g =>
      ((days p).map (fun d =>
        (hoursNL p).countP (fun h => sol.x p.pe_teacher g d h))).sum == 0) &&
    ((p.grades.map (fun g => ((days p).map (fun d =>
        (hoursNL p).countP (fun h => sol.x p.pe_teacher g d h))).sum)).sum
      == p.n_pe_periods)
  else true) &&
  -- lines 226-231: no same (t,g) in two consecutive teaching hours
  ((teachers p).all fun t => p.grades.all fun g => (days p).all fun d =>
    (List.range' 1 (p.n_hours - 1)).all fun h =>
      (h == p.lunch_hour) || ((h + 1) == p.lunch_hour) ||
      !(sol.x t g d h && sol.x t g d (h + 1)))

/-! ## Solution extraction and augmentation (`SchoolScheduler.get_solution`) -/

/-- A row of `schedule_df` / `extended_schedule`.  `isHomeroom = none`
until the augmenter writes the `IsHomeroom` column. -/
structure Row where
  teacher : String
  grade : String
  day : Nat
  hour : Nat
  dayName : String
  timeSlot : String
  isHomeroom : Option String
deriving Repr, DecidableEq

/-- The record appended for `(t, g, d, h)` in the schedule-extraction
loop of `get_solution` (lines 254-266). -/
def mkRow (p : Params) (t g : String) (d h : Nat) : Row :=
  { teacher := t, grade := g, day := d, hour := h,
    dayName := dayName p d, timeSlot := timeSlotLabel p h, isHomeroom := none }

/-- Table `self.schedule_df`: one row per `(t, g, d, h)` with `h ≠ lunch_hour`
and `x[t,g,d,h] = 1`, in loop order (lines 254-268). -/
def scheduleData (p : Params) (sol : Sol) : List Row :=
  (teachers p).flatMap fun t =>
    p.grades.flatMap fun g =>
      (days p).flatMap fun d =>
        ((hours p).filter (fun h => decide (h ≠ p.lunch_hour) && sol.x t g d h)).map
          (fun h => mkRow p t g d h)

/-- The two homeroom-collection loops of `get_solution` (lines 274-289):
for every teacher `t ≠ exclude` and every grade, read
`homeroom_grade[t, g]` and keep the pairs with value 1.  When
`homeroom_mode = 0` the `homeroom_grade` dict is empty (`get_model`
lines 151-155), so the first lookup raises `KeyError` and the
surrounding `try` turns the whole call into a failure; this is the
`none` branch, taken exactly when at least one lookup happens. -/
def collectHomeroom (p : Params) (sol : Sol) (exclude : String) :
    Option (List (String × String)) :=
  let pairs := ((teachers p).filter (fun t => t != exclude)).flatMap
    (fun t => p.grades.map (fun g => (t, g)))
  if 0 < p.homeroom_mode then some (pairs.filter (fun tg => sol.hr tg.1 tg.2))
  else if pairs.isEmpty then some [] else none

/-- List `check_hours` by mode (lines 302-307): hard-coded hours `1` and `8`,
independent of `n_hours`. -/
def checkHours (mode : Nat) : List Nat :=
  if mode == 2 then [1, 8] else if mode == 1 then [8] else []

/-- The `IsHomeroom` column formula applied to every existing row
(lines 326-331): `"Yes"` iff the row's hour is in the literal list
`[1, 8]` and some homeroom assignment matches its teacher and grade. -/
def flagRow (assigns : List (String × String)) (r : Row) : Row :=
  { r with isHomeroom := some (if (r.hour == 1 || r.hour == 8)
      && assigns.any (fun a => a.1 == r.teacher && a.2 == r.grade)
    then "Yes" else "No") }

/-- The synthetic presence row inserted for `(t, g, d, h)` (lines 314-322). -/
def synRow (p : Params) (t g : String) (d h : Nat) : Row :=
  { teacher := t, grade := g, day := d, hour := h,
    dayName := dayName p d, timeSlot := timeSlotLabel p h, isHomeroom := some "Yes" }

/-- List `new_rows` (lines 296-322): for every homeroom assignment, day, and
check hour, insert a synthetic row unless a row with the same
`(Teacher, Grade, Day, Hour)` already exists in the input schedule. -/
def newRows (p : Params) (assigns : List (String × String)) (rows : List Row) :
    List Row :=
  assigns.flatMap fun a => (days p).flatMap fun d =>
    ((checkHours p.homeroom_mode).filter (fun h =>
      !(rows.any (fun r =>
        r.teacher == a.1 && r.grade == a.2 && r.day == d && r.hour == h)))).map
      (fun h => synRow p a.1 a.2 d h)

/-- The schedule augmenter (lines 291-338): compute the missing presence
rows from the un-flagged schedule, write the `IsHomeroom` column on the
existing rows, then append the new rows. -/
def augmentSchedule (p : Params) (assigns : List (String × String))
    (rows : List Row) : List Row :=
  rows.map (flagRow assigns) ++ newRows p assigns rows

/-- The artifacts `get_solution` leaves on the scheduler object. -/
structure SolveOutput where
  scheduleDf : List Row
  homeroomDf : List (String × String)
  extendedSchedule : List Row
deriving Repr, DecidableEq

/-- Function `get_solution` (lines 236-353): on a non-OPTIMAL/FEASIBLE status, or
on any exception inside the block (in particular the `homeroom_grade`
`KeyError` when `homeroom_mode = 0`), return failure (`none`);
otherwise extract the schedule, the reported homeroom table (excluding
`pe_teacher`, line 275), the augmenter's driving list (excluding the
literal `"T13"`, line 286), and the augmented schedule. -/
def get_solution (p : Params) (st : Status) (sol : Sol) : Option SolveOutput :=
  if st = Status.optimal ∨ st = Status.feasible then
    match collectHomeroom p sol p.pe_teacher, collectHomeroom p sol "T13" with
    | some hrdf, some assigns =>
      some { scheduleDf := scheduleData p sol,
             homeroomDf := hrdf,
             extendedSchedule := augmentSchedule p assigns (scheduleData p sol) }
    | _, _ => none
  else none

/-! ## HTTP layer (`functions/main.py`) -/

/-- A parsed JSON request body: `none` marks an absent key.  Numeric
fields are modelled at their intended integer type. -/
structure Request where
  n_teachers : Option Nat
  grades : Option (List String)
  pe_teacher : Option String
  pe_grades : Option (List String)
  pe_day : Option Nat
  n_pe_periods : Option Nat
  start_hour : Option Nat
  n_hours : Option Nat
  lunch_hour : Option Nat
  days_per_week : Option Nat
  enable_pe_constraints : Option Bool
  homeroom_mode : Option Nat
deriving Repr, DecidableEq

/-- The request with every field absent. -/
def emptyRequest : Request :=
  { n_teachers := none, grades := none, pe_teacher := none, pe_grades := none,
    pe_day := none, n_pe_periods := none, start_hour := none, n_hours := none,
    lunch_hour := none, days_per_week := none, enable_pe_constraints := none,
    homeroom_mode := none }

/-- Function `validate_schedule_request` (`functions/main.py` lines 223-267),
for well-typed JSON values: required-field checks, `n_teachers` bounds,
`grades` shape checks, then (after defaults are filled in) the single
numeric cross-check `lunch_hour > n_hours`. -/
def validate_schedule_request (data : Request) : Bool × String :=
  match data.n_teachers with
  | none => (false, "Missing required field: n_teachers")
  | some n =>
    match data.grades with
    | none => (false, "Missing required field: grades")
    | some gs =>
      if n = 0 ∨ 50 < n then (false, "n_teachers must be between 1 and 50")
      else if gs.length = 0 then (false, "grades must be a non-empty list")
      else if 20 < gs.length then (false, "grades list cannot exceed 20 items")
      else
        match gs.find? (fun g => g.length == 0) with
        | some g => (false, "Invalid grade format: " ++ g)
        | none =>
          if data.n_hours.getD 8 < data.lunch_hour.getD 5 then
            (false, "lunch_hour must be between 1 and n_hours")
          else (true, "")

/-- The parameter object `generate_schedule` hands to
`scheduler.get_inputs` (lines 375-388), with the documented defaults for
absent options. -/
def mkParams (req : Request) : Params :=
  { n_teachers := req.n_teachers.getD 0,
    grades := req.grades.getD [],
    pe_teacher := req.pe_teacher.getD "T13",
    pe_grades := req.pe_grades.getD ["P4", "P5", "P6", "M1", "M2", "M3"],
    pe_day := req.pe_day.getD 3,
    n_pe_periods := req.n_pe_periods.getD 6,
    start_hour := req.start_hour.getD 8,
    n_hours := req.n_hours.getD 8,
    lunch_hour := req.lunch_hour.getD 5,
    days_per_week := req.days_per_week.getD 5,
    enable_pe_constraints := req.enable_pe_constraints.getD false,
    homeroom_mode := req.homeroom_mode.getD 1 }

/-- One reformatted schedule row of the response (lines 279-292). -/
structure RespRow where
  subject : String
  grade : String
  teacher : String
  day : String
  period : Nat
  time : String
  timeslot : String
  duration : Nat
deriving Repr, DecidableEq

/-- Function `format_schedule_data` (lines 269-294): reformat the schedule rows
and pass the homeroom records through unchanged. -/
def format_schedule_data (rows : List Row) (hr : List (String × String)) :
    List RespRow × List (String × String) :=
  (rows.map (fun item =>
    { subject := item.grade, grade := item.grade, teacher := item.teacher,
      day := item.dayName, period := item.hour,
      time := beforeDash item.timeSlot, timeslot := item.timeSlot,
      duration := 1 }), hr)

/-- The stable error kinds of the endpoint. -/
inductive ErrKind where
  | validation : String → ErrKind
  | noFeasibleSolution : ErrKind
  | internal : String → ErrKind
deriving Repr, DecidableEq

/-- The success payload (`data.schedule` and `data.homeroom`). -/
structure Response where
  schedule : List RespRow
  homeroom : List (String × String)
deriving Repr, DecidableEq

/-- The `generate_schedule` endpoint (lines 296-452), abstracted over the
solver outcome: validation failure → 400 validation error; the
`set_homeroom_mode` assertion on a mode outside `{0,1,2}` → 500 internal
error; `get_solution` failure → 422 `no_feasible_solution`; otherwise a
success response built from `schedule_df` (NOT `extended_schedule`) and
`homeroom_df`. -/
def generate_schedule (req : Request) (st : Status) (sol : Sol) :
    Except ErrKind Response :=
  match validate_schedule_request req with
  | (false, msg) => Except.error (ErrKind.validation msg)
  | (true, _) =>
    if 2 < req.homeroom_mode.getD 1 then
      Except.error (ErrKind.internal "homeroom_mode must be 0, 1, or 2")
    else
      match get_solution (mkParams req) st sol with
      | none => Except.error ErrKind.noFeasibleSolution
      | some out =>
        Except.ok { schedule := (format_schedule_data out.scheduleDf out.homeroomDf).1,
                    homeroom := (format_schedule_data out.scheduleDf out.homeroomDf).2 }

/-! ## Concrete instances used as counterexamples and witnesses -/

/-- Projection of a known-successful `get_solution` run (used only to
state closed witness instances). -/
def solveOut (p : Params) (st : Status) (sol : Sol) : SolveOutput :=
  (get_solution p st sol).getD
    { scheduleDf := [], homeroomDf := [], extendedSchedule := [] }

/-- The response of a run known to succeed (used only to state closed
witness instances). -/
def okResp (req : Request) (st : Status) (sol : Sol) : Response :=
  match generate_schedule req st sol with
  | Except.ok r => r
  | Except.error _ => { schedule := [], homeroom := [] }

/-- The all-zero assignment. -/
def solZero : Sol := { x := fun _ _ _ _ => false, hr := fun _ _ => false }

/-- A minimal mode-1 request: one teacher, one grade, one day, two hours
with lunch at hour 1 (so hour 2 is the only teaching hour). -/
def c1Req : Request :=
  { emptyRequest with
    n_teachers := some 1, grades := some ["P1"], n_hours := some 2,
    lunch_hour := some 1, days_per_week := some 1, homeroom_mode := some 1,
    enable_pe_constraints := some false }

def c1Params : Params := mkParams c1Req

/-- The (unique) feasible assignment for `c1Req`: `T1` teaches `P1` at
hour 2 and is its homeroom teacher. -/
def c1Sol : Sol :=
  { x := fun t g d h => t == "T1" && g == "P1" && d == 1 && h == 2,
    hr := fun t g => t == "T1" && g == "P1" }

/-- The mode-0 variant of `c1Req`. -/
def c2Req : Request := { c1Req with homeroom_mode := some 0 }

def c2Params : Params := mkParams c2Req

def c2Sol : Sol :=
  { x := fun t g d h => t == "T1" && g == "P1" && d == 1 && h == 2,
    hr := fun t g => t == "T1" && g == "P1" }

/-- Mode 1 with `n_hours = 4` and lunch at hour 2: the anchor period of
the spec is hour 4, not hour 8. -/
def c3Req : Request :=
  { emptyRequest with
    n_teachers := some 2, grades := some ["P1"], n_hours := some 4,
    lunch_hour := some 2, days_per_week := some 1, homeroom_mode := some 1,
    enable_pe_constraints := some false }

def c3Params : Params := mkParams c3Req

/-- A feasible assignment for `c3Req`: `T2` teaches hours 1 and 3, `T1`
teaches the last hour 4; both are homeroom teachers of `P1`. -/
def c3Sol : Sol :=
  { x := fun t g d h => g == "P1" && d == 1 &&
      ((t == "T2" && (h == 1 || h == 3)) || (t == "T1" && h == 4)),
    hr := fun t g => g == "P1" && (t == "T1" || t == "T2") }

/-- Like `c1Req` but with `pe_teacher = "T1"` (PE constraints disabled,
so the PE teacher is just a label used by the extraction filters). -/
def c4Req : Request := { c1Req with pe_teacher := some "T1" }

def c4Params : Params := mkParams c4Req

def c4Sol : Sol :=
  { x := fun t g d h => t == "T1" && g == "P1" && d == 1 && h == 2,
    hr := fun t g => t == "T1" && g == "P1" }

/-- A request violating three §4.1 rules at once: `lunch_hour = 0`,
`homeroom_mode = 5`, and a `pe_teacher` that is not a synthesized id. -/
def c5Req : Request :=
  { emptyRequest with
    n_teachers := some 2, grades := some ["P1"],
    lunch_hour := some 0, homeroom_mode := some 5,
    pe_teacher := some "NOPE" }

/-- PE enabled with `n_pe_periods = 0`: the PE block of
`_add_constraints` is skipped entirely. -/
def c6Req : Request :=
  { emptyRequest with
    n_teachers := some 1, grades := some ["P1"], n_hours := some 2,
    lunch_hour := some 1, days_per_week := some 1, homeroom_mode := some 1,
    enable_pe_constraints := some true, pe_teacher := some "T1",
    pe_grades := some [], n_pe_periods := some 0 }

def c6Params : Params := mkParams c6Req

def c6Sol : Sol :=
  { x := fun t g d h => t == "T1" && g == "P1" && d == 1 && h == 2,
    hr := fun t g => t == "T1" && g == "P1" }

/-- PE enabled, two teachers and two grades, PE grade `P1` taught by the
PE teacher `T1` exactly once on `pe_day = 1`. -/
def c6wReq : Request :=
  { emptyRequest with
    n_teachers := some 2, grades := some ["P1", "P2"], n_hours := some 2,
    lunch_hour := some 1, days_per_week := some 1, homeroom_mode := some 1,
    enable_pe_constraints := some true, pe_teacher := some "T1",
    pe_grades := some ["P1"], n_pe_periods := some 1, pe_day := some 1 }

def c6wParams : Params := mkParams c6wReq

def c6wSol : Sol :=
  { x := fun t g d h => d == 1 && h == 2 &&
      ((t == "T1" && g == "P1") || (t == "T2" && g == "P2")),
    hr := fun t g => (t == "T1" && g == "P1") || (t == "T2" && g == "P2")  }

/-- Same shape as `c4Req`: the only homeroom teacher of `P1` is the
configured PE teacher `T1`. -/
def c7Req : Request := { c1Req with pe_teacher := some "T1" }

def c7Params : Params := mkParams c7Req

def c7Sol : Sol :=
  { x := fun t g d h => t == "T1" && g == "P1" && d == 1 && h == 2,
    hr := fun t g => t == "T1" && g == "P1" }

/-! ## General list lemmas -/

theorem list_sum_map_zero {α : Type} (l : List α) :
    (l.map (fun _ => (0 : Nat))).sum = 0 := by
  induction l with
  | nil => rfl
  | cons a t ih => simp [ih]

theorem list_sum_map_add {α : Type} (l : List α) (f g : α → Nat) :
    (l.map (fun a => f a + g a)).sum = (l.map f).sum + (l.map g).sum := by
  induction l with
  | nil => rfl
  | cons a t ih => simp only [List.map_cons, List.sum_cons, ih]; omega

theorem list_sum_swap {α β : Type} (l₁ : List α) (l₂ : List β) (f : α → β → Nat) :
    (l₁.map (fun a => (l₂.map (fun b => f a b)).sum)).sum
      = (l₂.map (fun b => (l₁.map (fun a => f a b)).sum)).sum := by
  induction l₁ with
  | nil => simp [list_sum_map_zero]
  | cons a t ih =>
    simp only [List.map_cons, List.sum_cons, ih, list_sum_map_add]

theorem countP_eq_sum_map {α : Type} (l : List α) (pr : α → Bool) :
    l.countP pr = (l.map (fun a => if pr a then 1 else 0)).sum := by
  induction l with
  | nil => rfl
  | cons a t ih =>
    simp only [List.countP_cons, List.map_cons, List.sum_cons, ih]
    split <;> omega

theorem countP_const_and {α : Type} (l : List α) (c : Bool) (pr : α → Bool) :
    l.countP (fun a => c && pr a) = if c then l.countP pr else 0 := by
  cases c with
  | true => simp
  | false => simp [List.countP_eq_length_filter]

theorem list_sum_map_eq_zero {α : Type} (l : List α) (f : α → Nat)
    (h : ∀ a ∈ l, f a = 0) : (l.map f).sum = 0 := by
  induction l with
  | nil => rfl
  | cons a t ih =>
    simp only [List.map_cons, List.sum_cons, h a (by simp),
      ih (fun b hb => h b (by simp [hb]))]

theorem sum_map_ite_eq {α : Type} [DecidableEq α] (l : List α) (a : α)
    (f : α → Nat) (hnd : l.Nodup) (ha : a ∈ l) :
    (l.map (fun x => if x = a then f x else 0)).sum = f a := by
  induction l with
  | nil => cases ha
  | cons b t ih =>
    rcases List.mem_cons.mp ha with rfl | hmem
    · have hnin : a ∉ t := (List.nodup_cons.mp hnd).1
      have hz : (t.map (fun x => if x = a then f x else 0)).sum = 0 :=
        list_sum_map_eq_zero _ _ (fun x hx => by
          have : x ≠ a := fun he => hnin (he ▸ hx)
          simp [this])
      rw [List.map_cons, List.sum_cons, if_pos rfl, hz]
      omega
    · have hba : b ≠ a := fun he => ((List.nodup_cons.mp hnd).1 (he ▸ hmem))
      simp only [List.map_cons, List.sum_cons, if_neg hba,
        ih (List.nodup_cons.mp hnd).2 hmem]
      omega

theorem list_sum_map_const {α : Type} (l : List α) (c : Nat) :
    (l.map (fun _ => c)).sum = l.length * c := by
  induction l with
  | nil => simp
  | cons a t ih => simp only [List.map_cons, List.sum_cons, ih,
      List.length_cons]; ring

theorem two_le_countP {α : Type} (l : List α) (pr : α → Bool) (a b : α)
    (hab : a ≠ b) (ha : a ∈ l) (hb : b ∈ l) (hpa : pr a = true)
    (hpb : pr b = true) : 2 ≤ l.countP pr := by
  have ha' : a ∈ l.filter pr := List.mem_filter.mpr ⟨ha, hpa⟩
  have hb' : b ∈ l.filter pr := List.mem_filter.mpr ⟨hb, hpb⟩
  rw [List.countP_eq_length_filter]
  match hl : l.filter pr with
  | [] => rw [hl] at ha'; cases ha'
  | [x] =>
    rw [hl] at ha' hb'
    simp only [List.mem_singleton] at ha' hb'
    exact absurd (ha'.trans hb'.symm) hab
  | x :: y :: t => simp

/-! ## Decimal-printing lemmas -/

theorem digitChar_inj_lt : ∀ a < 10, ∀ b < 10, digitChar a = digitChar b → a = b := by
  decide

theorem digitChar_ne_dash (n : Nat) : digitChar n ≠ '-' := by
  unfold digitChar
  repeat' split
  all_goals decide

theorem toDecimalAux_congr :
    ∀ f1 : Nat, ∀ n : Nat, n < f1 → ∀ f2 : Nat, n < f2 →
      toDecimalAux f1 n = toDecimalAux f2 n := by
  intro f1
  induction f1 with
  | zero => intro n h; omega
  | succ f ih =>
    intro n hn f2 hf2
    cases f2 with
    | zero => omega
    | succ f2' =>
      by_cases h : n < 10
      · simp [toDecimalAux, h]
      · have hd : n / 10 < n := Nat.div_lt_self (by omega) (by omega)
        simp only [toDecimalAux, if_neg h]
        rw [ih (n / 10) (by omega) f2' (by omega)]

theorem toDecimalL_lt (n : Nat) (h : n < 10) : toDecimalL n = [digitChar n] := by
  simp [toDecimalL, toDecimalAux, h]

theorem toDecimalL_ge (n : Nat) (h : ¬n < 10) :
    toDecimalL n = toDecimalL (n / 10) ++ [digitChar (n % 10)] := by
  have hd : n / 10 < n := Nat.div_lt_self (by omega) (by omega)
  show toDecimalAux (n + 1) n = toDecimalAux (n / 10 + 1) (n / 10) ++ _
  have step : toDecimalAux (n + 1) n
      = toDecimalAux n (n / 10) ++ [digitChar (n % 10)] := by
    show (if n < 10 then [digitChar n]
      else toDecimalAux n (n / 10) ++ [digitChar (n % 10)]) = _
    rw [if_neg h]
  rw [step, toDecimalAux_congr n (n / 10) (by omega) (n / 10 + 1) (by omega)]

theorem toDecimalL_ne_nil (n : Nat) : toDecimalL n ≠ [] := by
  by_cases h : n < 10
  · rw [toDecimalL_lt n h]; simp
  · rw [toDecimalL_ge n h]; simp

theorem toDecimalL_no_dash (n : Nat) : ∀ c ∈ toDecimalL n, c ≠ '-' := by
  induction n using Nat.strong_induction_on with
  | _ n ih =>
    by_cases h : n < 10
    · rw [toDecimalL_lt n h]
      intro c hc
      simp only [List.mem_singleton] at hc
      exact hc ▸ digitChar_ne_dash n
    · rw [toDecimalL_ge n h]
      intro c hc
      rcases List.mem_append.mp hc with h1 | h2
      · exact ih (n / 10) (Nat.div_lt_self (by omega) (by omega)) c h1
      · simp only [List.mem_singleton] at h2
        exact h2 ▸ digitChar_ne_dash (n % 10)

theorem toDecimalL_inj : ∀ a b : Nat, toDecimalL a = toDecimalL b → a = b := by
  intro a
  induction a using Nat.strong_induction_on with
  | _ a ih =>
    intro b h
    by_cases ha : a < 10 <;> by_cases hb : b < 10
    · rw [toDecimalL_lt a ha, toDecimalL_lt b hb] at h
      simp only [List.cons.injEq, and_true] at h
      exact digitChar_inj_lt a ha b hb h
    · rw [toDecimalL_lt a ha, toDecimalL_ge b hb] at h
      have := congrArg List.length h
      simp only [List.length_singleton, List.length_append] at this
      have hne := toDecimalL_ne_nil (b / 10)
      cases hl : toDecimalL (b / 10) with
      | nil => exact absurd hl hne
      | cons x t => rw [hl] at this; simp at this
    · rw [toDecimalL_ge a ha, toDecimalL_lt b hb] at h
      have := congrArg List.length h
      simp only [List.length_singleton, List.length_append] at this
      have hne := toDecimalL_ne_nil (a / 10)
      cases hl : toDecimalL (a / 10) with
      | nil => exact absurd hl hne
      | cons x t => rw [hl] at this; simp at this
    · rw [toDecimalL_ge a ha, toDecimalL_ge b hb] at h
      have hrev := congrArg List.reverse h
      simp only [List.reverse_append, List.reverse_singleton,
        List.singleton_append, List.cons.injEq] at hrev
      obtain ⟨hdig, htail⟩ := hrev
      have hmod : a % 10 = b % 10 :=
        digitChar_inj_lt (a % 10) (Nat.mod_lt _ (by omega)) (b % 10)
          (Nat.mod_lt _ (by omega)) hdig
      have hdiv : a / 10 = b / 10 := by
        have := congrArg List.reverse htail
        simp only [List.reverse_reverse] at this
        exact ih (a / 10) (Nat.div_lt_self (by omega) (by omega)) (b / 10) this
      omega

theorem toDecimal_inj : ∀ a b : Nat, toDecimal a = toDecimal b → a = b := by
  intro a b h
  exact toDecimalL_inj a b (congrArg String.data h)

theorem teachers_nodup (p : Params) : (teachers p).Nodup := by
  refine List.Nodup.map ?_ (List.nodup_range _)
  intro i j hij
  have hdata := congrArg String.data hij
  rw [String.data_append, String.data_append] at hdata
  have h2 := List.append_cancel_left hdata
  have h3 : toDecimalL (i + 1) = toDecimalL (j + 1) := h2
  have := toDecimalL_inj _ _ h3
  omega

/-! ## Pipeline destructuring lemmas -/

theorem get_solution_eq_some {p : Params} {st : Status} {sol : Sol}
    {out : SolveOutput} (h : get_solution p st sol = some out) :
    (st = Status.optimal ∨ st = Status.feasible)
    ∧ ∃ hrdf assigns,
        collectHomeroom p sol p.pe_teacher = some hrdf
        ∧ collectHomeroom p sol "T13" = some assigns
        ∧ out = { scheduleDf := scheduleData p sol, homeroomDf := hrdf,
                  extendedSchedule :=
                    augmentSchedule p assigns (scheduleData p sol) } := by
  unfold get_solution at h
  split at h
  case isTrue hst =>
    refine ⟨hst, ?_⟩
    split at h
    case h_1 hrdf assigns h1 h2 =>
      exact ⟨hrdf, assigns, h1, h2, (Option.some.injEq _ _ ▸ h).symm⟩
    case h_2 => cases h
  case isFalse hst => cases h

theorem collectHomeroom_pos (p : Params) (sol : Sol) (exclude : String)
    (hm : 0 < p.homeroom_mode) :
    collectHomeroom p sol exclude
      = some ((((teachers p).filter (fun t => t != exclude)).flatMap
          (fun t => p.grades.map (fun g => (t, g)))).filter
            (fun tg => sol.hr tg.1 tg.2)) := by
  unfold collectHomeroom
  rw [if_pos hm]

theorem mem_collectHomeroom {p : Params} {sol : Sol} {exclude : String}
    {lst : List (String × String)} (hm : 0 < p.homeroom_mode)
    (hc : collectHomeroom p sol exclude = some lst) (t g : String) :
    (t, g) ∈ lst ↔
      (t ∈ teachers p ∧ t ≠ exclude ∧ g ∈ p.grades ∧ sol.hr t g = true) := by
  rw [collectHomeroom_pos p sol exclude hm] at hc
  have hl : lst = (((teachers p).filter (fun t => t != exclude)).flatMap
      (fun t => p.grades.map (fun g => (t, g)))).filter
        (fun tg => sol.hr tg.1 tg.2) := (Option.some.inj hc).symm
  subst hl
  simp only [List.mem_filter, List.mem_flatMap, List.mem_map, Prod.mk.injEq,
    bne_iff_ne, ne_eq]
  constructor
  · rintro ⟨⟨t', ⟨ht'm, ht'ne⟩, g', hg', ht, hg⟩, hhr⟩
    subst ht; subst hg
    exact ⟨ht'm, ht'ne, hg', hhr⟩
  · rintro ⟨htm, htne, hgm, hhr⟩
    exact ⟨⟨t, ⟨htm, htne⟩, g, hgm, rfl, rfl⟩, hhr⟩

/-! ## Augmenter lemmas -/

theorem flagRow_teacher (a : List (String × String)) (r : Row) :
    (flagRow a r).teacher = r.teacher := rfl

theorem flagRow_grade (a : List (String × String)) (r : Row) :
    (flagRow a r).grade = r.grade := rfl

theorem flagRow_day (a : List (String × String)) (r : Row) :
    (flagRow a r).day = r.day := rfl

theorem flagRow_hour (a : List (String × String)) (r : Row) :
    (flagRow a r).hour = r.hour := rfl

theorem flagRow_flagRow (a : List (String × String)) (r : Row) :
    flagRow a (flagRow a r) = flagRow a r := by
  cases r
  rfl

theorem mem_newRows {p : Params} {a : List (String × String)} {rows : List Row}
    {r : Row} :
    r ∈ newRows p a rows ↔
      ∃ tg ∈ a, ∃ d ∈ days p, ∃ h ∈ checkHours p.homeroom_mode,
        rows.any (fun r' => r'.teacher == tg.1 && r'.grade == tg.2 &&
          r'.day == d && r'.hour == h) = false
        ∧ r = synRow p tg.1 tg.2 d h := by
  simp only [newRows, List.mem_flatMap, List.mem_map, List.mem_filter,
    Bool.not_eq_true']
  constructor
  · rintro ⟨tg, htg, d, hd, h, ⟨hh, hguard⟩, rfl⟩
    exact ⟨tg, htg, d, hd, h, hh, hguard, rfl⟩
  · rintro ⟨tg, htg, d, hd, h, hh, hguard, rfl⟩
    exact ⟨tg, htg, d, hd, h, ⟨hh, hguard⟩, rfl⟩

theorem any_key_map_flag (a : List (String × String)) (rows : List Row)
    (t g : String) (d h : Nat) :
    (rows.map (flagRow a)).any (fun r => r.teacher == t && r.grade == g &&
        r.day == d && r.hour == h)
      = rows.any (fun r => r.teacher == t && r.grade == g &&
        r.day == d && r.hour == h) := by
  rw [List.any_map]
  rfl

theorem checkHours_mem (mode : Nat) (h : Nat) (hh : h ∈ checkHours mode) :
    (h == 1 || h == 8) = true := by
  unfold checkHours at hh
  split at hh
  · rcases List.mem_cons.mp hh with rfl | hh'
    · rfl
    · rcases List.mem_singleton.mp hh' with rfl; rfl
  · split at hh
    · rcases List.mem_singleton.mp hh with rfl; rfl
    · cases hh

theorem flagRow_synRow (p : Params) (a : List (String × String))
    (t g : String) (d h : Nat) (hmem : (t, g) ∈ a)
    (hh : (h == 1 || h == 8) = true) :
    flagRow a (synRow p t g d h) = synRow p t g d h := by
  have hany : a.any (fun x => x.1 == t && x.2 == g) = true :=
    List.any_eq_true.mpr ⟨(t, g), hmem, by simp⟩
  simp [flagRow, synRow, hh, hany]

theorem augment_covers (p : Params) (a : List (String × String))
    (rows : List Row) :
    ∀ tg ∈ a, ∀ d ∈ days p, ∀ h ∈ checkHours p.homeroom_mode,
      (augmentSchedule p a rows).any (fun r => r.teacher == tg.1 &&
        r.grade == tg.2 && r.day == d && r.hour == h) = true := by
  intro tg htg d hd h hh
  unfold augmentSchedule
  rw [List.any_append, any_key_map_flag]
  by_cases hex : rows.any (fun r => r.teacher == tg.1 && r.grade == tg.2 &&
      r.day == d && r.hour == h) = true
  · rw [hex]; rfl
  · have hmem : synRow p tg.1 tg.2 d h ∈ newRows p a rows :=
      mem_newRows.mpr ⟨tg, htg, d, hd, h, hh,
        Bool.not_eq_true _ ▸ (by simpa using hex), rfl⟩
    have : (newRows p a rows).any (fun r => r.teacher == tg.1 &&
        r.grade == tg.2 && r.day == d && r.hour == h) = true :=
      List.any_eq_true.mpr ⟨synRow p tg.1 tg.2 d h, hmem, by simp [synRow]⟩
    rw [this]
    simp

theorem list_flatMap_eq_nil {α β : Type} (l : List α) (f : α → List β)
    (h : ∀ a ∈ l, f a = []) : l.flatMap f = [] := by
  induction l with
  | nil => rfl
  | cons a t ih =>
    rw [List.flatMap_cons, h a (by simp), List.nil_append]
    exact ih (fun b hb => h b (by simp [hb]))

theorem newRows_augment (p : Params) (a : List (String × String))
    (rows : List Row) :
    newRows p a (augmentSchedule p a rows) = [] := by
  unfold newRows
  apply list_flatMap_eq_nil
  intro tg htg
  apply list_flatMap_eq_nil
  intro d hd
  have hfil : (checkHours p.homeroom_mode).filter (fun h =>
      !((augmentSchedule p a rows).any (fun r => r.teacher == tg.1 &&
        r.grade == tg.2 && r.day == d && r.hour == h))) = [] := by
    apply List.filter_eq_nil_iff.mpr
    intro h hh
    rw [augment_covers p a rows tg htg d hd h hh]
    simp
  rw [hfil]
  rfl

theorem list_map_congr_mem {α β : Type} {l : List α} {f g : α → β}
    (h : ∀ a ∈ l, f a = g a) : l.map f = l.map g := by
  induction l with
  | nil => rfl
  | cons a t ih =>
    rw [List.map_cons, List.map_cons, h a (by simp),
      ih (fun b hb => h b (by simp [hb]))]

theorem map_flag_newRows (p : Params) (a : List (String × String))
    (rows : List Row) :
    (newRows p a rows).map (flagRow a) = newRows p a rows := by
  have := list_map_congr_mem (l := newRows p a rows) (f := flagRow a) (g := id)
    (fun r hr => by
      rcases mem_newRows.mp hr with ⟨tg, htg, d, hd, h, hh, hguard, rfl⟩
      exact flagRow_synRow p a tg.1 tg.2 d h (by simpa using htg)
        (checkHours_mem _ _ hh))
  simpa using this

/-- C10: the schedule augmenter is idempotent — applying the
flag-and-insert pass to an already augmented schedule returns exactly
the same list of rows — and a synthetic row is never inserted for a
`(teacher, grade, day, hour)` key that already has a row in the input
schedule. -/
theorem c10_augment_idempotent :
    ∀ (p : Params) (a : List (String × String)) (rows : List Row),
      augmentSchedule p a (augmentSchedule p a rows) = augmentSchedule p a rows
      ∧ ∀ t g d h,
          rows.any (fun r => r.teacher == t && r.grade == g &&
            r.day == d && r.hour == h) = true →
          (newRows p a rows).countP (fun r => r.teacher == t && r.grade == g &&
            r.day == d && r.hour == h) = 0 := by
  intro p a rows
  constructor
  · show (augmentSchedule p a rows).map (flagRow a) ++
      newRows p a (augmentSchedule p a rows) = _
    rw [newRows_augment, List.append_nil]
    unfold augmentSchedule
    rw [List.map_append, List.map_map]
    rw [list_map_congr_mem (f := flagRow a ∘ flagRow a) (g := flagRow a)
      (fun r _ => flagRow_flagRow a r)]
    rw [map_flag_newRows]
  · intro t g d h hex
    apply List.countP_eq_zero.mpr
    intro r hr hkey
    rcases mem_newRows.mp hr with ⟨tg, htg, d', hd', h', hh', hguard, rfl⟩
    simp only [synRow, Bool.and_eq_true, beq_iff_eq] at hkey
    obtain ⟨⟨⟨ht, hg⟩, hd⟩, hh⟩ := hkey
    rw [ht, hg, hd, hh] at hguard
    rw [hex] at hguard
    cases hguard

/-- C10 witness: the idempotence theorem applied at the concrete mode-1
instance of the file (one teacher, one grade, one day), discharging the
non-duplication hypothesis at the key of its single teaching row. -/
theorem c10_augment_idempotent_witness :
    augmentSchedule c1Params [("T1", "P1")]
        (augmentSchedule c1Params [("T1", "P1")] (scheduleData c1Params c1Sol))
      = augmentSchedule c1Params [("T1", "P1")] (scheduleData c1Params c1Sol)
    ∧ (newRows c1Params [("T1", "P1")] (scheduleData c1Params c1Sol)).countP
        (fun r => r.teacher == "T1" && r.grade == "P1" &&
          r.day == 1 && r.hour == 2) = 0 :=
  ⟨(c10_augment_idempotent c1Params [("T1", "P1")] (scheduleData c1Params c1Sol)).1,
   (c10_augment_idempotent c1Params [("T1", "P1")] (scheduleData c1Params c1Sol)).2
     "T1" "P1" 1 2 (by decide)⟩

/-! ## Counting the extracted schedule -/

theorem countP_scheduleData (p : Params) (sol : Sol) (q : Row → Bool) :
    (scheduleData p sol).countP q
      = ((teachers p).map (fun t => (p.grades.map (fun g =>
          ((days p).map (fun d =>
            (hours p).countP (fun h => q (mkRow p t g d h) &&
              (decide (h ≠ p.lunch_hour) && sol.x t g d h)))).sum)).sum)).sum := by
  unfold scheduleData
  simp only [List.countP_flatMap, Function.comp_def, List.countP_map,
    List.countP_filter]

theorem countP_ne_lunch (p : Params) (sol : Sol) (t g : String) (d : Nat) :
    (hours p).countP (fun h => decide (h ≠ p.lunch_hour) && sol.x t g d h)
      = (hoursNL p).countP (fun h => sol.x t g d h) := by
  unfold hoursNL
  rw [List.countP_filter]
  exact List.countP_congr (fun h _ => by
    constructor
    · intro hx
      simp only [Bool.and_eq_true] at hx ⊢
      exact ⟨hx.2, hx.1⟩
    · intro hx
      simp only [Bool.and_eq_true] at hx ⊢
      exact ⟨hx.2, hx.1⟩)

theorem countP_const_and_x (p : Params) (sol : Sol) (t g : String) (d : Nat)
    (c : Bool) :
    (hours p).countP (fun h => c && (decide (h ≠ p.lunch_hour) && sol.x t g d h))
      = if c then (hoursNL p).countP (fun h => sol.x t g d h) else 0 := by
  cases c
  · rw [if_neg (by simp)]
    have : (hours p).countP (fun h => false &&
        (decide (h ≠ p.lunch_hour) && sol.x t g d h))
        = (hours p).countP (fun _ => false) := List.countP_congr (fun h _ => by simp)
    rw [this, List.countP_false]
    rfl
  · rw [if_pos rfl, ← countP_ne_lunch p sol t g d]
    exact List.countP_congr (fun h _ => by simp)

theorem sum_map_if_const {α : Type} (l : List α) (c : Bool) (f : α → Nat) :
    (l.map (fun x => if c then f x else 0)).sum
      = if c then (l.map f).sum else 0 := by
  cases c
  · simp [list_sum_map_zero]
  · simp

theorem scheduleData_count_sel (p : Params) (sol : Sol)
    (qt : String → Bool) (qg : String → Bool) (qd : Nat → Bool) :
    (scheduleData p sol).countP
        (fun r => qt r.teacher && qg r.grade && qd r.day)
      = ((teachers p).map (fun t => if qt t then
          (p.grades.map (fun g => if qg g then
            ((days p).map (fun d => if qd d then
              (hoursNL p).countP (fun h => sol.x t g d h) else 0)).sum
          else 0)).sum
        else 0)).sum := by
  rw [countP_scheduleData]
  refine congrArg List.sum (list_map_congr_mem (fun t _ => ?_))
  by_cases ht : qt t = true
  · rw [if_pos ht]
    refine congrArg List.sum (list_map_congr_mem (fun g _ => ?_))
    by_cases hg : qg g = true
    · rw [if_pos hg]
      refine congrArg List.sum (list_map_congr_mem (fun d _ => ?_))
      have : (fun h => (qt (mkRow p t g d h).teacher &&
            qg (mkRow p t g d h).grade && qd (mkRow p t g d h).day) &&
            (decide (h ≠ p.lunch_hour) && sol.x t g d h))
          = fun h => qd d && (decide (h ≠ p.lunch_hour) && sol.x t g d h) := by
        funext h
        show ((qt t && qg g && qd d) &&
          (decide (h ≠ p.lunch_hour) && sol.x t g d h)) = _
        rw [ht, hg]
        simp
      rw [this, countP_const_and_x]
    · rw [if_neg hg]
      refine list_sum_map_eq_zero _ _ (fun d _ => ?_)
      have hg' : qg g = false := by revert hg; cases qg g <;> simp
      have : (fun h => (qt (mkRow p t g d h).teacher &&
            qg (mkRow p t g d h).grade && qd (mkRow p t g d h).day) &&
            (decide (h ≠ p.lunch_hour) && sol.x t g d h))
          = fun h => (false : Bool) && (decide (h ≠ p.lunch_hour) && sol.x t g d h) := by
        funext h
        show ((qt t && qg g && qd d) &&
          (decide (h ≠ p.lunch_hour) && sol.x t g d h)) = _
        rw [hg']
        simp
      rw [this, countP_const_and_x]
      simp
  · rw [if_neg ht]
    refine list_sum_map_eq_zero _ _ (fun g _ => ?_)
    refine list_sum_map_eq_zero _ _ (fun d _ => ?_)
    have ht' : qt t = false := by revert ht; cases qt t <;> simp
    have : (fun h => (qt (mkRow p t g d h).teacher &&
          qg (mkRow p t g d h).grade && qd (mkRow p t g d h).day) &&
          (decide (h ≠ p.lunch_hour) && sol.x t g d h))
        = fun h => (false : Bool) && (decide (h ≠ p.lunch_hour) && sol.x t g d h) := by
      funext h
      show ((qt t && qg g && qd d) &&
        (decide (h ≠ p.lunch_hour) && sol.x t g d h)) = _
      rw [ht']
      simp
    rw [this, countP_const_and_x]
    simp

/-! ## Constraint decomposition -/

theorem ch_coverage {p : Params} {sol : Sol}
    (hc : constraints_hold p sol = true) :
    ∀ g ∈ p.grades, ∀ d ∈ days p, ∀ h ∈ hoursNL p,
      (teachers p).countP (fun t => sol.x t g d h) = 1 := by
  unfold constraints_hold at hc
  simp only [Bool.and_eq_true] at hc
  obtain ⟨⟨⟨⟨h1, _⟩, _⟩, _⟩, _⟩ := hc
  intro g hg d hd h hh
  have := List.all_eq_true.mp
    (List.all_eq_true.mp (List.all_eq_true.mp h1 g hg) d hd) h hh
  exact beq_iff_eq.mp this

theorem ch_hr {p : Params} {sol : Sol}
    (hc : constraints_hold p sol = true) (hm : 0 < p.homeroom_mode) :
    (∀ t ∈ teachers p, p.grades.countP (fun g => sol.hr t g) ≤ 1)
    ∧ (∀ g ∈ p.grades, 1 ≤ (teachers p).countP (fun t => sol.hr t g)) := by
  unfold constraints_hold at hc
  simp only [Bool.and_eq_true] at hc
  obtain ⟨⟨⟨⟨_, _⟩, h3⟩, _⟩, _⟩ := hc
  rw [if_pos hm] at h3
  simp only [Bool.and_eq_true] at h3
  obtain ⟨⟨⟨h31, h32⟩, _⟩, _⟩ := h3
  constructor
  · intro t ht
    exact of_decide_eq_true (List.all_eq_true.mp h31 t ht)
  · intro g hg
    exact of_decide_eq_true (List.all_eq_true.mp h32 g hg)

theorem ch_pe {p : Params} {sol : Sol}
    (hc : constraints_hold p sol = true)
    (hen : p.enable_pe_constraints = true) (hnp : 0 < p.n_pe_periods) :
    (∀ g ∈ p.pe_grades,
      (hoursNL p).countP (fun h => sol.x p.pe_teacher g p.pe_day h) = 1)
    ∧ (∀ g ∈ nonPeGrades p,
        ((days p).map (fun d =>
          (hoursNL p).countP (fun h => sol.x p.pe_teacher g d h))).sum = 0)
    ∧ ((p.grades.map (fun g => ((days p).map (fun d =>
          (hoursNL p).countP (fun h => sol.x p.pe_teacher g d h))).sum)).sum
        = p.n_pe_periods) := by
  unfold constraints_hold at hc
  simp only [Bool.and_eq_true] at hc
  obtain ⟨⟨⟨⟨_, _⟩, _⟩, h4⟩, _⟩ := hc
  rw [if_pos (⟨hen, by simp [hnp]⟩ :
    p.enable_pe_constraints = true ∧ decide (0 < p.n_pe_periods) = true)] at h4
  simp only [Bool.and_eq_true] at h4
  obtain ⟨⟨h41, h42⟩, h43⟩ := h4
  refine ⟨?_, ?_, beq_iff_eq.mp h43⟩
  · intro g hg
    exact beq_iff_eq.mp (List.all_eq_true.mp h41 g hg)
  · intro g hg
    exact beq_iff_eq.mp (List.all_eq_true.mp h42 g hg)

/-! ## Count specializations -/

theorem scheduleData_count_teacher (p : Params) (sol : Sol) (tsel : String)
    (ht : tsel ∈ teachers p) :
    (scheduleData p sol).countP (fun r => r.teacher == tsel)
      = (p.grades.map (fun g => ((days p).map (fun d =>
          (hoursNL p).countP (fun h => sol.x tsel g d h))).sum)).sum := by
  have hpred : (scheduleData p sol).countP (fun r => r.teacher == tsel)
      = (scheduleData p sol).countP
          (fun r => (fun t => t == tsel) r.teacher &&
            (fun _ : String => true) r.grade && (fun _ : Nat => true) r.day) :=
    List.countP_congr (fun r _ => by simp)
  have hsel := scheduleData_count_sel p sol (fun t => t == tsel)
    (fun _ : String => true) (fun _ : Nat => true)
  rw [hpred, hsel]
  simp only [if_true]
  simp only [beq_iff_eq]
  exact sum_map_ite_eq (teachers p) tsel _ (teachers_nodup p) ht

theorem scheduleData_count_tg (p : Params) (sol : Sol) (tsel gsel : String)
    (ht : tsel ∈ teachers p) (hg : gsel ∈ p.grades) (hgnd : p.grades.Nodup) :
    (scheduleData p sol).countP
        (fun r => r.teacher == tsel && r.grade == gsel)
      = ((days p).map (fun d =>
          (hoursNL p).countP (fun h => sol.x tsel gsel d h))).sum := by
  have hpred : (scheduleData p sol).countP
        (fun r => r.teacher == tsel && r.grade == gsel)
      = (scheduleData p sol).countP
          (fun r => (fun t => t == tsel) r.teacher &&
            (fun g => g == gsel) r.grade && (fun _ : Nat => true) r.day) :=
    List.countP_congr (fun r _ => by simp)
  have hsel := scheduleData_count_sel p sol (fun t => t == tsel)
    (fun g => g == gsel) (fun _ : Nat => true)
  rw [hpred, hsel]
  simp only [if_true]
  simp only [beq_iff_eq]
  rw [sum_map_ite_eq (teachers p) tsel _ (teachers_nodup p) ht]
  rw [sum_map_ite_eq p.grades gsel _ hgnd hg]

theorem scheduleData_count_tgd (p : Params) (sol : Sol) (tsel gsel : String)
    (dsel : Nat) (ht : tsel ∈ teachers p) (hg : gsel ∈ p.grades)
    (hd : dsel ∈ days p) (hgnd : p.grades.Nodup) :
    (scheduleData p sol).countP
        (fun r => r.teacher == tsel && r.grade == gsel && r.day == dsel)
      = (hoursNL p).countP (fun h => sol.x tsel gsel dsel h) := by
  have hpred : (scheduleData p sol).countP
        (fun r => r.teacher == tsel && r.grade == gsel && r.day == dsel)
      = (scheduleData p sol).countP
          (fun r => (fun t => t == tsel) r.teacher &&
            (fun g => g == gsel) r.grade && (fun d => d == dsel) r.day) :=
    List.countP_congr (fun r _ => by simp)
  have hsel := scheduleData_count_sel p sol (fun t => t == tsel)
    (fun g => g == gsel) (fun d => d == dsel)
  rw [hpred, hsel]
  simp only [beq_iff_eq]
  have hdnd : (days p).Nodup := List.nodup_range' _ _
  rw [sum_map_ite_eq (teachers p) tsel _ (teachers_nodup p) ht]
  rw [sum_map_ite_eq p.grades gsel _ hgnd hg]
  rw [sum_map_ite_eq (days p) dsel _ hdnd hd]

/-! ## Concrete pipeline evaluations (counterexamples and bug witnesses) -/

/-- C1 counterexample: on the feasible mode-1 request `c1Req` the
augmented schedule has 2 rows (1 teaching record plus 1 synthetic
homeroom-presence row), but the HTTP response carries only 1 schedule
row — the response is built from the raw `schedule_df`, so it does NOT
include the synthetic rows, contradicting the claimed row count
`teaching + synthetic = 2`. -/
theorem c1_counterexample :
    constraints_hold c1Params c1Sol = true
    ∧ (generate_schedule c1Req Status.optimal c1Sol).map
        (fun r => r.schedule.length) = Except.ok 1
    ∧ (get_solution c1Params Status.optimal c1Sol).map
        (fun o => o.scheduleDf.length) = some 1
    ∧ (get_solution c1Params Status.optimal c1Sol).map
        (fun o => o.extendedSchedule.length) = some 2
    ∧ (1 : Nat) ≠ 2 := by
  exact ⟨by decide, by rfl, by decide, by decide, by decide⟩

/-- C2: with `homeroom_mode = 0` the claim says a feasible request
succeeds with an empty homeroom list; evaluating the code model on the
feasible assignment `c2Sol` shows the request instead fails with
`no_feasible_solution`, because `get_solution` reads the
`homeroom_grade` dict that `get_model` never populated in mode 0
(`KeyError` caught by the blanket `except`). -/
theorem c2_mode0_crash_eval :
    constraints_hold c2Params c2Sol = true
    ∧ c2Params.homeroom_mode = 0
    ∧ c2Params.enable_pe_constraints = false
    ∧ validate_schedule_request c2Req = (true, "")
    ∧ generate_schedule c2Req Status.optimal c2Sol
        = Except.error ErrKind.noFeasibleSolution := by
  exact ⟨by decide, by decide, by decide, by decide, by rfl⟩

/-- C3 counterexample: with `n_hours = 4` and `homeroom_mode = 1` the
claimed anchor set is `{4}`, yet the augmented schedule of the feasible
request `c3Req` contains 2 synthetic rows at hour 8 (outside the day),
no `is_homeroom = yes` row at the anchor hour 4, and an
`is_homeroom = yes` flag at hour 1 even though mode 1 anchors only the
last period: both augmenter operations use the hard-coded hours
`{1, 8}`, not the mode/`n_hours` anchor set. -/
theorem c3_counterexample :
    constraints_hold c3Params c3Sol = true
    ∧ c3Params.homeroom_mode = 1
    ∧ c3Params.n_hours = 4
    ∧ (get_solution c3Params Status.optimal c3Sol).map
        (fun o => (o.extendedSchedule.countP (fun r => r.hour == 8),
                   o.extendedSchedule.countP
                     (fun r => r.hour == 4 && r.isHomeroom == some "Yes"),
                   o.extendedSchedule.countP
                     (fun r => r.hour == 1 && r.isHomeroom == some "Yes")))
        = some (2, 0, 1) := by
  exact ⟨by decide, by decide, by decide, by decide⟩

/-- C4: the claim says the augmenter is driven by the reported homeroom
set (all `hr = 1` pairs with `t ≠ pe_teacher`).  With
`pe_teacher = "T1"` the reported table is empty, but the augmenter's
driving list (which excludes only the literal `"T13"`, despite the
`Skip PE teacher` comment in the source) still contains `("T1", "P1")`
and inserts a synthetic presence row for the PE teacher. -/
theorem c4_fixed_t13_eval :
    constraints_hold c4Params c4Sol = true
    ∧ c4Params.pe_teacher = "T1"
    ∧ collectHomeroom c4Params c4Sol c4Params.pe_teacher = some []
    ∧ collectHomeroom c4Params c4Sol "T13" = some [("T1", "P1")]
    ∧ (get_solution c4Params Status.optimal c4Sol).map
        (fun o => o.homeroomDf) = some []
    ∧ (get_solution c4Params Status.optimal c4Sol).map
        (fun o => o.extendedSchedule.countP
          (fun r => r.teacher == "T1" && r.isHomeroom == some "Yes"))
        = some 1 := by
  exact ⟨by decide, by decide, by decide, by decide, by decide, by decide⟩

/-- C5 counterexample: the request `c5Req` violates three of the §4.1
rules the claim lists (`lunch_hour = 0`, `homeroom_mode = 5`,
`pe_teacher` not a synthesized id), yet `validate_schedule_request`
accepts it; the pipeline then fails on the scheduler's
`homeroom_mode` assertion with an internal (HTTP 500) error, not a
validation error. -/
theorem c5_counterexample :
    validate_schedule_request c5Req = (true, "")
    ∧ generate_schedule c5Req Status.optimal solZero
        = Except.error (ErrKind.internal "homeroom_mode must be 0, 1, or 2") := by
  exact ⟨by decide, by rfl⟩

/-- C6 counterexample: with PE enabled but `n_pe_periods = 0` the PE
block of `_add_constraints` is skipped, so the feasible assignment
`c6Sol` is accepted although the PE teacher `T1` teaches 1 period,
not `n_pe_periods = 0` as the claim requires. -/
theorem c6_counterexample :
    constraints_hold c6Params c6Sol = true
    ∧ c6Params.enable_pe_constraints = true
    ∧ c6Params.n_pe_periods = 0
    ∧ (get_solution c6Params Status.optimal c6Sol).isSome = true
    ∧ (get_solution c6Params Status.optimal c6Sol).map
        (fun o => o.scheduleDf.countP
          (fun r => r.teacher == c6Params.pe_teacher)) = some 1
    ∧ (1 : Nat) ≠ c6Params.n_pe_periods := by
  exact ⟨by decide, by decide, by decide, by decide, by decide, by decide⟩

/-- C7 counterexample: in the accepted mode-1 solution `c7Sol` the only
homeroom teacher of grade `P1` is the configured PE teacher `T1`, so the
reported homeroom table is empty: grade `P1` has no record, refuting
"at least one record for every grade". -/
theorem c7_counterexample :
    constraints_hold c7Params c7Sol = true
    ∧ c7Params.homeroom_mode = 1
    ∧ "P1" ∈ c7Params.grades
    ∧ (get_solution c7Params Status.optimal c7Sol).map
        (fun o => o.homeroomDf) = some [] := by
  exact ⟨by decide, by decide, by decide, by decide⟩

/-! ## Length of the extracted schedule under coverage -/

theorem length_hoursNL (p : Params) (h1 : 1 ≤ p.lunch_hour)
    (h2 : p.lunch_hour ≤ p.n_hours) : (hoursNL p).length = p.n_hours - 1 := by
  unfold hoursNL
  have hmem : p.lunch_hour ∈ hours p := by
    unfold hours
    rw [List.mem_range']
    exact ⟨p.lunch_hour - 1, by omega, by omega⟩
  have hnd : (hours p).Nodup := List.nodup_range' _ _
  have hcount : (hours p).countP (fun h => decide (h = p.lunch_hour)) = 1 := by
    have hone := List.count_eq_one_of_mem hnd hmem
    rw [List.count_eq_countP] at hone
    rw [← hone]
    exact List.countP_congr (fun h _ => by simp)
  have hlen := List.length_eq_countP_add_countP
    (fun h => decide (h ≠ p.lunch_hour)) (hours p)
  have hsplit : (hours p).countP
      (fun a => decide (¬(decide (a ≠ p.lunch_hour)) = true))
      = (hours p).countP (fun h => decide (h = p.lunch_hour)) :=
    List.countP_congr (fun h _ => by simp)
  have hhl : (hours p).length = p.n_hours := by
    unfold hours
    rw [List.length_range']
  rw [← List.countP_eq_length_filter]
  omega

theorem length_scheduleData (p : Params) (sol : Sol)
    (hcov : ∀ g ∈ p.grades, ∀ d ∈ days p, ∀ h ∈ hoursNL p,
      (teachers p).countP (fun t => sol.x t g d h) = 1)
    (h1 : 1 ≤ p.lunch_hour) (h2 : p.lunch_hour ≤ p.n_hours) :
    (scheduleData p sol).length
      = p.grades.length * (p.days_per_week * (p.n_hours - 1)) := by
  unfold scheduleData
  simp only [List.length_flatMap, Function.comp_def, List.length_map,
    ← List.countP_eq_length_filter]
  rw [list_map_congr_mem (fun t _ => congrArg List.sum (list_map_congr_mem
    (fun g _ => congrArg List.sum (list_map_congr_mem
      (fun d _ => countP_ne_lunch p sol t g d)))))]
  rw [list_sum_swap (teachers p) p.grades (fun t g => ((days p).map
    (fun d => (hoursNL p).countP (fun h => sol.x t g d h))).sum)]
  rw [list_map_congr_mem (fun g _ => list_sum_swap (teachers p) (days p)
    (fun t d => (hoursNL p).countP (fun h => sol.x t g d h)))]
  have key : ∀ g ∈ p.grades, ∀ d ∈ days p,
      ((teachers p).map
        (fun t => (hoursNL p).countP (fun h => sol.x t g d h))).sum
      = (hoursNL p).length := by
    intro g hg d hd
    rw [list_map_congr_mem (fun t _ =>
      countP_eq_sum_map (hoursNL p) (fun h => sol.x t g d h))]
    rw [list_sum_swap (teachers p) (hoursNL p)
      (fun t h => if sol.x t g d h then 1 else 0)]
    rw [list_map_congr_mem (fun h _ =>
      (countP_eq_sum_map (teachers p) (fun t => sol.x t g d h)).symm)]
    rw [list_map_congr_mem (fun h hh => hcov g hg d hd h hh)]
    rw [list_sum_map_const]
    omega
  rw [list_map_congr_mem (fun g hg => congrArg List.sum
    (list_map_congr_mem (fun d hd => key g hg d hd)))]
  rw [list_map_congr_mem (fun g _ =>
    list_sum_map_const (days p) (hoursNL p).length)]
  rw [list_sum_map_const]
  have hdl : (days p).length = p.days_per_week := by
    unfold days
    rw [List.length_range']
  rw [hdl, length_hoursNL p h1 h2]

/-! ## Endpoint destructuring -/

theorem generate_schedule_ok {req : Request} {st : Status} {sol : Sol}
    {resp : Response} (h : generate_schedule req st sol = Except.ok resp) :
    ∃ out, get_solution (mkParams req) st sol = some out
      ∧ resp.schedule = (format_schedule_data out.scheduleDf out.homeroomDf).1
      ∧ resp.homeroom = out.homeroomDf := by
  unfold generate_schedule at h
  split at h
  · cases h
  · split at h
    · cases h
    · split at h
      · cases h
      case h_2 out hout =>
        refine ⟨out, hout, ?_, ?_⟩
        · rw [← Except.ok.inj h]
        · rw [← Except.ok.inj h]
          rfl

/-! ## Amended claim theorems -/

/-- C1 (amended): the schedule rows of the HTTP response are produced
from the RAW teaching schedule (`schedule_df`), not from the augmented
schedule: `generate_schedule` passes `scheduler.schedule_df` to
`format_schedule_data`, so the response contains no synthetic
homeroom-presence rows and (whenever the model constraints hold and
`lunch_hour ∈ [1, n_hours]`) its row count is exactly
`|grades| × days_per_week × (n_hours − 1)`. -/
theorem c1_amended_response_from_raw_schedule
    (req : Request) (st : Status) (sol : Sol) (resp : Response)
    (hok : generate_schedule req st sol = Except.ok resp)
    (hc : constraints_hold (mkParams req) sol = true)
    (hl1 : 1 ≤ (mkParams req).lunch_hour)
    (hl2 : (mkParams req).lunch_hour ≤ (mkParams req).n_hours) :
    resp.schedule
      = (format_schedule_data (scheduleData (mkParams req) sol)
          resp.homeroom).1
    ∧ resp.schedule.length
      = (mkParams req).grades.length *
        ((mkParams req).days_per_week * ((mkParams req).n_hours - 1)) := by
  obtain ⟨out, hout, hsched, hhr⟩ := generate_schedule_ok hok
  obtain ⟨hst, hrdf, assigns, hcol1, hcol2, houteq⟩ := get_solution_eq_some hout
  have hdf : out.scheduleDf = scheduleData (mkParams req) sol := by rw [houteq]
  constructor
  · rw [hsched, hdf]
    rfl
  · rw [hsched, hdf]
    have hfmt : ((format_schedule_data (scheduleData (mkParams req) sol)
        out.homeroomDf).1).length
        = (scheduleData (mkParams req) sol).length := by
      unfold format_schedule_data
      rw [List.length_map]
    rw [hfmt, length_scheduleData _ _ (ch_coverage hc) hl1 hl2]

/-- C1 witness: the amended theorem applied to the concrete instance
`c1Req` (1 grade × 1 day × (2 − 1) hours = 1 response row). -/
theorem c1_amended_witness :
    (okResp c1Req Status.optimal c1Sol).schedule.length = 1 := by
  have h := c1_amended_response_from_raw_schedule c1Req Status.optimal c1Sol
    (okResp c1Req Status.optimal c1Sol) (by rfl) (by decide) (by decide)
    (by decide)
  rw [h.2]
  decide

/-- C6 (amended): on every reported success with PE constraints enabled
AND `n_pe_periods > 0` (the code skips the whole PE block when
`n_pe_periods = 0`), the teaching records satisfy: the PE teacher
teaches exactly `n_pe_periods` periods over the week; every PE grade is
taught by the PE teacher exactly once among `pe_day`'s teaching hours
(the encoding does not rule out further occurrences on other days
unless forced by the weekly total); and every non-PE grade is taught by
the PE teacher zero times.  The well-formedness hypotheses
(`pe_teacher` a synthesized id, `pe_grades ⊆ grades`, `pe_day` a valid
day, no duplicate grades) hold for every request that reaches a
successful solve, since `_add_constraints` would have raised a
`KeyError` otherwise. -/
theorem c6_amended_pe_invariants
    (p : Params) (st : Status) (sol : Sol) (out : SolveOutput)
    (hok : get_solution p st sol = some out)
    (hc : constraints_hold p sol = true)
    (hen : p.enable_pe_constraints = true)
    (hnp : 0 < p.n_pe_periods)
    (hpe : p.pe_teacher ∈ teachers p)
    (hgnd : p.grades.Nodup)
    (hsub : ∀ g ∈ p.pe_grades, g ∈ p.grades)
    (hday : p.pe_day ∈ days p) :
    out.scheduleDf.countP (fun r => r.teacher == p.pe_teacher) = p.n_pe_periods
    ∧ (∀ g ∈ p.pe_grades,
        out.scheduleDf.countP (fun r => r.teacher == p.pe_teacher &&
          r.grade == g && r.day == p.pe_day) = 1)
    ∧ (∀ g ∈ nonPeGrades p,
        out.scheduleDf.countP (fun r => r.teacher == p.pe_teacher &&
          r.grade == g) = 0) := by
  obtain ⟨hst, hrdf, assigns, h1, h2, hout⟩ := get_solution_eq_some hok
  have hsched : out.scheduleDf = scheduleData p sol := by rw [hout]
  obtain ⟨hc8, hc9, hc10⟩ := ch_pe hc hen hnp
  refine ⟨?_, ?_, ?_⟩
  · rw [hsched, scheduleData_count_teacher p sol p.pe_teacher hpe]
    exact hc10
  · intro g hg
    rw [hsched, scheduleData_count_tgd p sol p.pe_teacher g p.pe_day hpe
      (hsub g hg) hday hgnd]
    exact hc8 g hg
  · intro g hg
    have hgg : g ∈ p.grades := (List.mem_filter.mp hg).1
    rw [hsched, scheduleData_count_tg p sol p.pe_teacher g hpe hgg hgnd]
    exact hc9 g hg

/-- C6 witness: the amended theorem applied to the concrete feasible
PE instance `c6wReq` (PE teacher `T1`, one PE grade taught once on
`pe_day = 1`, `n_pe_periods = 1`). -/
theorem c6_amended_witness :
    (solveOut c6wParams Status.optimal c6wSol).scheduleDf.countP
        (fun r => r.teacher == c6wParams.pe_teacher) = c6wParams.n_pe_periods :=
  (c6_amended_pe_invariants c6wParams Status.optimal c6wSol
    (solveOut c6wParams Status.optimal c6wSol) (by rfl) (by decide) (by decide)
    (by decide) (by decide) (by decide) (by decide) (by decide)).1

/-- C7 (amended): on every reported success with `homeroom_mode ≥ 1`,
the returned homeroom table never pairs one teacher with two grades and
never contains the PE teacher; in the underlying assignment every grade
has at least one homeroom teacher, but the reported table omits a
grade's record when its only homeroom teacher is the configured
`pe_teacher` (which the extraction filter excludes). -/
theorem c7_amended_homeroom_table
    (p : Params) (st : Status) (sol : Sol) (out : SolveOutput)
    (hok : get_solution p st sol = some out)
    (hc : constraints_hold p sol = true)
    (hm : 0 < p.homeroom_mode) :
    (∀ t g g', (t, g) ∈ out.homeroomDf → (t, g') ∈ out.homeroomDf → g = g')
    ∧ (∀ t g, (t, g) ∈ out.homeroomDf → t ≠ p.pe_teacher)
    ∧ (∀ g ∈ p.grades, ∃ t ∈ teachers p, sol.hr t g = true) := by
  obtain ⟨hst, hrdf, assigns, h1, h2, hout⟩ := get_solution_eq_some hok
  have hdf : out.homeroomDf = hrdf := by rw [hout]
  obtain ⟨hle, hge⟩ := ch_hr hc hm
  refine ⟨?_, ?_, ?_⟩
  · intro t g g' hgmem hg'mem
    rw [hdf] at hgmem hg'mem
    obtain ⟨htm, _, hgm, hhr⟩ := (mem_collectHomeroom hm h1 t g).mp hgmem
    obtain ⟨_, _, hg'm, hhr'⟩ := (mem_collectHomeroom hm h1 t g').mp hg'mem
    by_contra hne
    have h2le := two_le_countP p.grades (fun gg => sol.hr t gg) g g' hne
      hgm hg'm hhr hhr'
    have := hle t htm
    omega
  · intro t g hmem
    rw [hdf] at hmem
    exact ((mem_collectHomeroom hm h1 t g).mp hmem).2.1
  · intro g hg
    have := hge g hg
    have hpos : 0 < (teachers p).countP (fun t => sol.hr t g) := by omega
    obtain ⟨t, htm, hht⟩ := List.countP_pos_iff.mp hpos
    exact ⟨t, htm, hht⟩

/-- C7 witness: the amended theorem applied to the concrete instance
`c6wReq`, whose reported table is `[("T2", "P2")]`: `T2` is not the PE
teacher, and grade `P1` still has a homeroom teacher in the model. -/
theorem c7_amended_witness :
    ("T2" : String) ≠ c6wParams.pe_teacher :=
  (c7_amended_homeroom_table c6wParams Status.optimal c6wSol
    (solveOut c6wParams Status.optimal c6wSol) (by rfl) (by decide)
    (by decide)).2.1 "T2" "P2" (by decide)

/-- C3 (amended): both augmenter operations use hard-coded hours
independent of `n_hours`: synthetic presence rows are inserted (per
assignment and day, when no row with the same key exists) exactly at
the literal hours `{8}` in mode 1 and `{1, 8}` in mode 2, none in mode
0; and `is_homeroom = yes` is set on an existing row iff its hour is in
the literal set `{1, 8}` — in every mode, including mode 1 — and a
matching homeroom assignment exists.  After augmentation every
(assignment, day, check-hour) triple is covered by some row. -/
theorem c3_amended_fixed_anchor_hours :
    ∀ (p : Params) (a : List (String × String)) (rows : List Row),
      (∀ r ∈ newRows p a rows,
        r.isHomeroom = some "Yes"
        ∧ (p.homeroom_mode = 1 → r.hour = 8)
        ∧ (p.homeroom_mode = 2 → r.hour = 1 ∨ r.hour = 8)
        ∧ (p.homeroom_mode = 0 → False))
      ∧ (∀ r ∈ rows, ((flagRow a r).isHomeroom = some "Yes"
          ↔ ((r.hour = 1 ∨ r.hour = 8)
            ∧ ∃ tg ∈ a, tg.1 = r.teacher ∧ tg.2 = r.grade)))
      ∧ (∀ tg ∈ a, ∀ d ∈ days p, ∀ h ∈ checkHours p.homeroom_mode,
          (augmentSchedule p a rows).any (fun r => r.teacher == tg.1 &&
            r.grade == tg.2 && r.day == d && r.hour == h) = true) := by
  intro p a rows
  refine ⟨?_, ?_, augment_covers p a rows⟩
  · intro r hr
    rcases mem_newRows.mp hr with ⟨tg, htg, d, hd, h, hh, hguard, rfl⟩
    refine ⟨rfl, ?_, ?_, ?_⟩
    · intro hm1
      rw [hm1] at hh
      have : h ∈ [8] := hh
      simpa [synRow] using this
    · intro hm2
      rw [hm2] at hh
      have : h ∈ [1, 8] := hh
      simpa [synRow] using this
    · intro hm0
      rw [hm0] at hh
      simp [checkHours] at hh
  · intro r hr
    have hgen : ∀ c : Bool,
        ((some (if c then "Yes" else "No") : Option String) = some "Yes")
          ↔ c = true := by
      intro c
      cases c <;> simp
    show (some (if (r.hour == 1 || r.hour == 8) &&
        a.any (fun x => x.1 == r.teacher && x.2 == r.grade)
      then "Yes" else "No") = some "Yes") ↔ _
    rw [hgen]
    simp only [Bool.and_eq_true, Bool.or_eq_true, beq_iff_eq,
      List.any_eq_true]

/-- C3 witness: the amended theorem applied at the `c3Req` parameters
(`homeroom_mode = 1`, `n_hours = 4`): the augmenter covers the
hard-coded check hour 8 for the assignment `("T1", "P1")` on day 1. -/
theorem c3_amended_witness :
    (augmentSchedule c3Params [("T1", "P1")] []).any
      (fun r => r.teacher == "T1" && r.grade == "P1" &&
        r.day == 1 && r.hour == 8) = true :=
  (c3_amended_fixed_anchor_hours c3Params [("T1", "P1")] []).2.2
    ("T1", "P1") (by decide) 1 (by decide) 8 (by decide)

/-- C5 (amended): `validate_schedule_request` checks only the presence
of `n_teachers` and `grades`, `n_teachers ∈ [1, 50]`, `grades` a
non-empty list of at most 20 non-empty strings, and
`lunch_hour ≤ n_hours` (after defaults).  In particular
`lunch_hour = 0`, `homeroom_mode ∉ {0, 1, 2}` and an unknown
`pe_teacher` all pass validation; an out-of-range `homeroom_mode` later
fails the scheduler assertion and surfaces as an internal (500) error,
not as a validation error. -/
theorem c5_amended_validation_characterization :
    ∀ (req : Request) (n : Nat) (gs : List String),
      req.n_teachers = some n → req.grades = some gs →
      ((validate_schedule_request req).1 = true ↔
        (1 ≤ n ∧ n ≤ 50 ∧ gs ≠ [] ∧ gs.length ≤ 20
          ∧ (∀ g ∈ gs, g.length ≠ 0)
          ∧ req.lunch_hour.getD 5 ≤ req.n_hours.getD 8)) := by
  intro req n gs hn hgs
  unfold validate_schedule_request
  rw [hn, hgs]
  show ((if n = 0 ∨ 50 < n then _ else _ : Bool × String).1 = true) ↔ _
  constructor
  · intro hv
    by_cases h1 : n = 0 ∨ 50 < n
    · rw [if_pos h1] at hv
      simp at hv
    rw [if_neg h1] at hv
    by_cases h2 : gs.length = 0
    · rw [if_pos h2] at hv
      simp at hv
    rw [if_neg h2] at hv
    by_cases h3 : 20 < gs.length
    · rw [if_pos h3] at hv
      simp at hv
    rw [if_neg h3] at hv
    cases hf : gs.find? (fun g => g.length == 0) with
    | some g =>
      rw [hf] at hv
      simp at hv
    | none =>
      rw [hf] at hv
      by_cases h5 : req.n_hours.getD 8 < req.lunch_hour.getD 5
      · rw [if_pos h5] at hv
        simp at hv
      · refine ⟨by omega, by omega, ?_, by omega, ?_, by omega⟩
        · intro he
          rw [he] at h2
          simp at h2
        · intro g hg
          have := List.find?_eq_none.mp hf g hg
          simpa using this
  · rintro ⟨ha, hb, hcne, hd, he, hf⟩
    rw [if_neg (by omega)]
    rw [if_neg (by
      intro h0
      rw [List.length_eq_zero] at h0
      exact hcne h0)]
    rw [if_neg (by omega)]
    rw [show gs.find? (fun g => g.length == 0) = none from
      List.find?_eq_none.mpr (fun g hg => by simpa using he g hg)]
    rw [if_neg (by omega)]

/-- C5 witness: the characterization applied at `c1Req`, which
satisfies every remaining rule and therefore passes validation. -/
theorem c5_amended_witness :
    (validate_schedule_request c1Req).1 = true :=
  (c5_amended_validation_characterization c1Req 1 ["P1"] rfl rfl).mpr
    (by decide)

/-- C8: the solve is configured with a 300-second wall-clock cap
(`max_time_in_seconds`), the pipeline consumes exactly one solver
outcome with no retry, and whenever that outcome is anything other
than OPTIMAL or FEASIBLE — including UNKNOWN after exhausting the
budget — a validated request receives the `no_feasible_solution`
error, which carries no schedule or homeroom data. -/
theorem c8_solver_failure_yields_no_feasible
    (req : Request) (st : Status) (sol : Sol)
    (hv : validate_schedule_request req = (true, ""))
    (hm : req.homeroom_mode.getD 1 ≤ 2)
    (h1 : st ≠ Status.optimal) (h2 : st ≠ Status.feasible) :
    generate_schedule req st sol = Except.error ErrKind.noFeasibleSolution
    ∧ max_time_in_seconds = 300 := by
  constructor
  · have hgs : get_solution (mkParams req) st sol = none := by
      unfold get_solution
      rw [if_neg (fun hor => hor.elim (fun he => h1 he) (fun he => h2 he))]
    unfold generate_schedule
    rw [hv]
    show (if 2 < req.homeroom_mode.getD 1 then _ else _) = _
    rw [if_neg (by omega), hgs]
  · rfl

/-- C8 witness: the theorem applied at `c1Req` with an INFEASIBLE
solver outcome. -/
theorem c8_witness :
    generate_schedule c1Req Status.infeasible c1Sol
        = Except.error ErrKind.noFeasibleSolution
    ∧ max_time_in_seconds = 300 :=
  c8_solver_failure_yields_no_feasible c1Req Status.infeasible c1Sol
    (by decide) (by decide) (by decide) (by decide)

/-! ## Time-label lemmas for C9 -/

theorem pad2_no_dash (n : Nat) : ∀ c ∈ (pad2 n).data, c ≠ '-' := by
  unfold pad2
  split
  · intro c hc
    rw [String.data_append] at hc
    rcases List.mem_append.mp hc with h0 | hdec
    · have : c = '0' := by simpa using h0
      rw [this]
      decide
    · exact toDecimalL_no_dash n c hdec
  · exact toDecimalL_no_dash n

theorem takeWhile_append_all {α : Type} {p : α → Bool} {l₁ l₂ : List α}
    (h : ∀ a ∈ l₁, p a = true) :
    (l₁ ++ l₂).takeWhile p = l₁ ++ l₂.takeWhile p := by
  induction l₁ with
  | nil => rfl
  | cons a t ih =>
    rw [List.cons_append, List.takeWhile_cons, if_pos (h a (by simp)),
      ih (fun b hb => h b (by simp [hb])), List.cons_append]

theorem beforeDash_timeSlot (p : Params) (h : Nat) :
    beforeDash (timeSlotLabel p h) = pad2 (p.start_hour + h - 1) ++ ":00" := by
  unfold beforeDash timeSlotLabel
  apply String.ext
  show ((pad2 (p.start_hour + h - 1) ++ ":00-" ++ pad2 (p.start_hour + h)
    ++ ":00").data.takeWhile (fun c => c != '-')) = _
  rw [String.data_append, String.data_append, String.data_append]
  rw [List.append_assoc ((pad2 (p.start_hour + h - 1)).data ++ (":00-").data),
    List.append_assoc (pad2 (p.start_hour + h - 1)).data]
  rw [takeWhile_append_all (fun c hc => by
    simpa using pad2_no_dash (p.start_hour + h - 1) c hc)]
  have hrest : ((":00-").data ++
      ((pad2 (p.start_hour + h)).data ++ (":00").data)).takeWhile
        (fun c => c != '-') = [':', '0', '0'] := by
    show ((([':', '0', '0'] : List Char) ++ ('-' ::
      ((pad2 (p.start_hour + h)).data ++ (":00").data))).takeWhile
        (fun c => c != '-')) = _
    rw [takeWhile_append_all (by decide)]
    rw [List.takeWhile_cons, if_neg (by decide)]
    rfl
  rw [hrest]
  rw [String.data_append]

theorem mem_scheduleData {p : Params} {sol : Sol} {r : Row}
    (hr : r ∈ scheduleData p sol) :
    ∃ t g d h, r = mkRow p t g d h ∧ h ∈ hours p := by
  unfold scheduleData at hr
  simp only [List.mem_flatMap, List.mem_map, List.mem_filter] at hr
  obtain ⟨t, _, g, _, d, _, h, ⟨hh, _⟩, rfl⟩ := hr
  exact ⟨t, g, d, h, rfl, hh⟩

/-- C9: every schedule row of a successful response satisfies the view
contract: `subject` equals the grade label, `duration = 1`, `period` is
the (1-based) hour index, `timeslot` is
`pad2(start_hour + period - 1) ++ ":00-" ++ pad2(start_hour + period) ++ ":00"`
(so the second hour field is one greater than the first), and `time` is
the part of `timeslot` before the first `'-'`, namely
`pad2(start_hour + period - 1) ++ ":00"`. -/
theorem c9_response_row_format
    (req : Request) (st : Status) (sol : Sol) (resp : Response)
    (hok : generate_schedule req st sol = Except.ok resp) :
    ∀ r ∈ resp.schedule,
      r.subject = r.grade
      ∧ r.duration = 1
      ∧ 1 ≤ r.period
      ∧ r.timeslot = pad2 ((mkParams req).start_hour + r.period - 1) ++ ":00-"
          ++ pad2 ((mkParams req).start_hour + r.period) ++ ":00"
      ∧ (mkParams req).start_hour + r.period
          = ((mkParams req).start_hour + r.period - 1) + 1
      ∧ r.time = pad2 ((mkParams req).start_hour + r.period - 1) ++ ":00"
      ∧ r.time = beforeDash r.timeslot := by
  obtain ⟨out, hout, hsched, hhr⟩ := generate_schedule_ok hok
  obtain ⟨_, hrdf, assigns, _, _, houteq⟩ := get_solution_eq_some hout
  have hdf : out.scheduleDf = scheduleData (mkParams req) sol := by rw [houteq]
  intro r hrmem
  rw [hsched, hdf] at hrmem
  obtain ⟨row, hrow, rfl⟩ := List.mem_map.mp hrmem
  obtain ⟨t, g, d, h, rfl, hh⟩ := mem_scheduleData hrow
  have hh1 : 1 ≤ h := by
    unfold hours at hh
    rw [List.mem_range'] at hh
    omega
  refine ⟨rfl, rfl, hh1, rfl, ?_, ?_, rfl⟩
  · show (mkParams req).start_hour + h
      = ((mkParams req).start_hour + h - 1) + 1
    omega
  · exact beforeDash_timeSlot (mkParams req) h

/-- C9 witness: the format theorem applied to the single response row of
the concrete instance `c1Req` (period 2, `start_hour = 8`,
timeslot `09:00-10:00`). -/
theorem c9_witness :
    (mkParams c1Req).start_hour + 2
      = ((mkParams c1Req).start_hour + 2 - 1) + 1 := by
  have h := c9_response_row_format c1Req Status.optimal c1Sol
    (okResp c1Req Status.optimal c1Sol) (by rfl)
  have hrow := h ⟨"P1", "P1", "T1", "Mon", 2, "09:00", "09:00-10:00", 1⟩
    (by decide)
  exact hrow.2.2.2.2.1

end SSched
